import Mathlib

/-!
Shallow embedding of the frame-processing core of `digital_mirror.py`
(CameraWidget / DigitalMirrorApp), together with theorems settling the
frozen claims about its specification.

Conventions:
* numpy `uint8` samples are modelled as `ℕ` with explicit saturation /
  wrap-around (`% 256`) where the code can overflow;
* Python floats are modelled as exact rationals `ℚ`; `int(x)` is
  truncation toward zero, `//` is floor division;
* rasters are modelled as total functions on the pixel grid.
-/

/-! ## Brightness adjustment (`_render_frame`, lines 467-469)

The source applies `cv2.convertScaleAbs(frame, alpha=1.0, beta=brightness)`
when `brightness != 0`.  `convertScaleAbs` computes
`saturate_cast<uchar>(|src + beta|)`: it takes the ABSOLUTE VALUE of the
shifted sample and then saturates at 255. -/

/-- One colour sample after the brightness step of `_render_frame`:
skipped when `b = 0`, otherwise `min 255 |v + b|` (the semantics of
`cv2.convertScaleAbs` with `alpha=1.0`, `beta=b` on a `uint8` sample). -/
def renderBrightness (b : ℤ) (v : ℕ) : ℕ :=
  if b = 0 then v else min 255 ((v + b).natAbs)

/-- Modelled from the spec: `output sample = clamp(input sample + brightness, 0, 255)`,
the claim's formula ("saturates at the sample-value bounds 0 and 255"). -/
def specBrightness (b : ℤ) (v : ℕ) : ℕ :=
  (min 255 (max 0 ((v : ℤ) + b))).toNat

/-! ## Paint strokes on the user mask layers (`_paint_at_position`, lines 296-303)

Each stroke fills a disc with 1 in the layer selected by the mode and
fills the same disc with 0 in the opposite layer (`cv2.circle` with
thickness `-1`).  Layers start zero-filled (`np.zeros`). -/

/-- Membership of pixel `p` in the filled brush disc of radius `r`
centred at `c` (the disc both `cv2.circle` calls of a stroke fill). -/
def inBrush (c : ℤ × ℤ) (r : ℕ) (p : ℤ × ℤ) : Bool :=
  if (p.1 - c.1) ^ 2 + (p.2 - c.2) ^ 2 ≤ (r : ℤ) ^ 2 then true else false

/-- The two user-painted mask layers of `CameraWidget`
(`user_mask_additions` and `user_mask_removals`). -/
structure MaskLayers where
  additions : ℤ × ℤ → ℕ
  removals : ℤ × ℤ → ℕ

/-- Freshly initialised layers: `np.zeros` for both. -/
def emptyLayers : MaskLayers :=
  ⟨fun _ => 0, fun _ => 0⟩

/-- One paint stroke: centre, brush radius, and mode
(`add_mode` true = Add, false = Erase). -/
structure Stroke where
  center : ℤ × ℤ
  radius : ℕ
  addMode : Bool

/-- `cv2.circle(layer, c, r, v, -1)`: fill the disc with value `v`,
leave the rest of the layer unchanged. -/
def circleFill (layer : ℤ × ℤ → ℕ) (c : ℤ × ℤ) (r : ℕ) (v : ℕ) :
    ℤ × ℤ → ℕ :=
  fun p => if inBrush c r p then v else layer p

/-- The two `cv2.circle` calls of `_paint_at_position`: fill the disc
with 1 in the layer matching the mode and with 0 in the opposite layer. -/
def paintAt (L : MaskLayers) (s : Stroke) : MaskLayers :=
  if s.addMode then
    ⟨circleFill L.additions s.center s.radius 1,
     circleFill L.removals s.center s.radius 0⟩
  else
    ⟨circleFill L.additions s.center s.radius 0,
     circleFill L.removals s.center s.radius 1⟩

/-- A finite sequence of paint strokes applied to freshly initialised
(zero-filled) layers. -/
def applyStrokes (ss : List Stroke) : MaskLayers :=
  ss.foldl paintAt emptyLayers

/-- Mutual exclusion of the two layers at pixel `p` (0/1 values:
the product is 0 iff the pixel is not set in both layers). -/
def layersExclusive (L : MaskLayers) : Prop :=
  ∀ p : ℤ × ℤ, L.additions p * L.removals p = 0

/-! ## Combining the user layers with the segmenter mask
(`_render_frame`, lines 523-530)

`mask_binary = mask_binary | additions` when the additions layer exists
and its shape matches, then `mask_binary = mask_binary & ~removals`
likewise.  `~` on `uint8` is complement within 8 bits, i.e. `255 ^^^ r`. -/

/-- A mask raster together with its numpy shape. -/
structure SizedMask where
  rows : ℕ
  cols : ℕ
  val : ℕ → ℕ → ℕ

/-- The user-layer combination step of `_render_frame`: OR in the
additions layer when present with matching shape, then AND with the
`uint8` complement of the removals layer when present with matching
shape; a mismatching layer is ignored. -/
def combineUserMasks (base : SizedMask) (adds rems : Option SizedMask) :
    SizedMask :=
  let m1 : SizedMask :=
    match adds with
    | some a =>
        if a.rows = base.rows ∧ a.cols = base.cols then
          { base with val := fun i j => base.val i j ||| a.val i j }
        else base
    | none => base
  match rems with
  | some r =>
      if r.rows = m1.rows ∧ r.cols = m1.cols then
        { m1 with val := fun i j => m1.val i j &&& (255 ^^^ r.val i j) }
      else m1
  | none => m1

/-- Concrete 3×3 mask used by witnesses. -/
def sampleMask : SizedMask :=
  ⟨3, 3, fun i j => if i = j then 1 else 0⟩

/-- Concrete 3×3 layer used by witnesses. -/
def sampleLayer : SizedMask :=
  ⟨3, 3, fun i _ => if i = 0 then 1 else 0⟩

/-! ## Sticker export (`_export_sticker`, lines 1151-1169)

The quality loop: starting at quality 90, `final.save(path, "WEBP",
quality)` writes the file to disk; if the save succeeds and the
resulting file is ≤ 500 KB the export succeeds, otherwise the quality is
lowered by 10 and the loop retries while `quality >= 10`; a failing save
breaks out.  When the loop ends without success, a warning dialog
("Failed to save sticker") is shown.  Nothing ever deletes the file.

The encoder is abstracted as `save : ℕ → Option ℕ`: `none` means
`QImage.save` returned false (nothing written), `some size` means the
file was written to disk with `size` bytes.  The `Bool` component of the
result tracks whether a file is on disk afterwards. -/

/-- Result of `_export_sticker`: a saved file of a given byte size, or
the surfaced "Failed to save sticker" warning. -/
inductive ExportOutcome where
  | saved (size : ℕ)
  | failed
  deriving DecidableEq

/-- The 500 KB WhatsApp sticker budget (`500 * 1024`). -/
def stickerSizeLimit : ℕ := 500 * 1024

/-- The `while quality >= 10` loop of `_export_sticker`.  `onDisk`
records whether a file currently exists at the target path. -/
def exportQualityLoop (save : ℕ → Option ℕ) (quality : ℕ) (onDisk : Bool) :
    ExportOutcome × Bool :=
  if _h : 10 ≤ quality then
    match save quality with
    | some size =>
        if size ≤ stickerSizeLimit then (ExportOutcome.saved size, true)
        else exportQualityLoop save (quality - 10) true
    | none => (ExportOutcome.failed, onDisk)
  else (ExportOutcome.failed, onDisk)
termination_by quality
decreasing_by omega

/-- `_export_sticker`'s encode-and-check phase: the quality loop started
at quality 90 with no file on disk yet. -/
def exportSticker (save : ℕ → Option ℕ) : ExportOutcome × Bool :=
  exportQualityLoop save 90 false

/-- An encoder whose output is 600 KB at every quality step (used as the
counterexample input: every step exceeds the budget). -/
def oversizedEncoder : ℕ → Option ℕ :=
  fun _ => some (600 * 1024)

/-! ## Pan offset clamping and zoom changes
(`_clamp_pan_offset` lines 382-391, `_on_zoom_changed` lines 998-1005)

`_clamp_pan_offset` clamps both offsets to
`[-max_pan, max_pan]` with `max_pan = max(0, 1 - 1/_last_zoom)` when
`_last_zoom` has been set by a render, else `max_pan = 0.5`.

`_on_zoom_changed` stores the new zoom level and, when the widget is
frozen, triggers `rerender_frozen_frame` → `_render_frame`, which sets
`_last_zoom = zoom` — but no path of it calls `_clamp_pan_offset`. -/

/-- The pan-relevant state of `CameraWidget`: `is_frozen`, the
`_last_zoom` recorded by the most recent render (absent before the first
render), and the two pan offsets. -/
structure PanState where
  isFrozen : Bool
  lastZoom : Option ℚ
  panX : ℚ
  panY : ℚ

/-- `max_pan` as computed by `_clamp_pan_offset`. -/
def maxPanFor : Option ℚ → ℚ
  | some z => max 0 (1 - 1 / z)
  | none => 1 / 2

/-- `_clamp_pan_offset`: clamp both offsets to `[-max_pan, max_pan]`. -/
def clampPanOffset (s : PanState) : PanState :=
  { s with
    panX := max (-(maxPanFor s.lastZoom)) (min (maxPanFor s.lastZoom) s.panX),
    panY := max (-(maxPanFor s.lastZoom)) (min (maxPanFor s.lastZoom) s.panY) }

/-- A pan input (wheel scroll, drag, or arrow key): both offsets are
shifted and then `_clamp_pan_offset` is applied — every pan path in the
source ends with the clamp. -/
def panInput (s : PanState) (dx dy : ℚ) : PanState :=
  clampPanOffset { s with panX := s.panX + dx, panY := s.panY + dy }

/-- `_on_zoom_changed` as seen by the widget state: when frozen, the
rerender runs `_render_frame`, which records `_last_zoom := z`; the pan
offsets are left untouched (no re-clamp happens anywhere on this path).
When not frozen nothing reaches the widget. -/
def onZoomChanged (s : PanState) (z : ℚ) : PanState :=
  if s.isFrozen then { s with lastZoom := some z } else s

/-- The claimed invariant: both pan offsets are bounded by
`max(0, 1 − 1/zoom)` for the currently recorded zoom. -/
def panWithin (s : PanState) : Prop :=
  |s.panX| ≤ maxPanFor s.lastZoom ∧ |s.panY| ≤ maxPanFor s.lastZoom

/-! ## Display→processing coordinate mapping
(`_paint_at_position`, lines 240-287, no-crop branch)

Per axis: `offset = (widget - pixmap) // 2` (Python floor division);
`p = int(pos - offset)`; reject when `p < 0` or `p >= pixmap`;
`norm = p / pixmap`; `f = int(norm * proc)` — truncation toward zero of
a nonnegative exact ratio, i.e. `⌊p·proc/pixmap⌋`; finally clamp to
`[0, proc-1]`. -/

/-- One axis of the display→processing mapping of `_paint_at_position`
when no display crop is active (`_display_crop is None`), from an
integer pointer coordinate.  `none` is the out-of-bounds rejection. -/
def displayToProcessing (pos widgetW pixmapW procW : ℤ) : Option ℤ :=
  let p := pos - (widgetW - pixmapW).fdiv 2
  if p < 0 ∨ pixmapW ≤ p then none
  else some (max 0 (min (procW - 1) ((p * procW).fdiv pixmapW)))

/-! ## Geometric transform (`_render_frame`, lines 447-469) -/

/-- An RGB frame: height, width, and three `uint8` samples per pixel
(total function; indices past the bounds are phantom). -/
structure RawFrame where
  h : ℕ
  w : ℕ
  px : ℕ → ℕ → ℕ × ℕ × ℕ

/-- Python `int()` on an exact rational: truncation toward zero
(Lean's `Int` division on `num / den` truncates toward zero). -/
def pyTrunc (q : ℚ) : ℤ :=
  q.num / (q.den : ℤ)

/-- `cv2.flip(frame, 1)` when `mirrored`: horizontal flip. -/
def mirrorFrame (mirrored : Bool) (f : RawFrame) : RawFrame :=
  if mirrored then { f with px := fun i j => f.px i (f.w - 1 - j) } else f

/-- The zoom/pan crop of `_render_frame`: when `zoom > 1.0`, crop
dimensions `int(w/zoom)`, `int(h/zoom)`; pan in pixels
`int(pan * dimension / 2)`; window origin centred, shifted by the pan,
and clamped to `[0, dimension - cropDimension]`; then the slice
`frame[y1:y1+crop_h, x1:x1+crop_w]`. -/
def zoomCrop (zoom panX panY : ℚ) (f : RawFrame) : RawFrame :=
  if 1 < zoom then
    let cropW : ℕ := (pyTrunc ((f.w : ℚ) / zoom)).toNat
    let cropH : ℕ := (pyTrunc ((f.h : ℚ) / zoom)).toNat
    let panPx : ℤ := pyTrunc (panX * (f.w : ℚ) / 2)
    let panPy : ℤ := pyTrunc (panY * (f.h : ℚ) / 2)
    let x1 : ℤ := max 0 (min ((f.w : ℤ) - cropW) (((f.w : ℤ) - cropW).fdiv 2 - panPx))
    let y1 : ℤ := max 0 (min ((f.h : ℤ) - cropH) (((f.h : ℤ) - cropH).fdiv 2 - panPy))
    { h := cropH, w := cropW,
      px := fun i j => f.px (y1.toNat + i) (x1.toNat + j) }
  else f

/-- Brightness applied to every channel of every pixel (lines 467-469;
`renderBrightness` already contains the `brightness != 0` skip). -/
def brightnessFrame (b : ℤ) (f : RawFrame) : RawFrame :=
  { f with px := fun i j =>
      (renderBrightness b (f.px i j).1,
       renderBrightness b (f.px i j).2.1,
       renderBrightness b (f.px i j).2.2) }

/-- The geometric part of `_render_frame`: mirror, then zoom/pan crop,
then brightness. -/
def renderGeometry (f : RawFrame) (mirrored : Bool)
    (zoom panX panY : ℚ) (b : ℤ) : RawFrame :=
  brightnessFrame b (zoomCrop zoom panX panY (mirrorFrame mirrored f))

/-- A 100×100 test frame used by witnesses. -/
def testFrame : RawFrame :=
  ⟨100, 100, fun i j => (i % 256, j % 256, 7)⟩

/-! ## Timer ticks and frozen re-renders
(`_update_frame` lines 964-984, `_rerender_frozen` lines 986-990)

`_update_frame` returns immediately while the widget is frozen; on a
successful live read it zeroes both pan offsets, unchecks the mask-edit
button, and renders with `bg_removal=False, bg_session=None` regardless
of `bg_removal_enabled`.  `_rerender_frozen` renders with
`bg_removal_enabled` and the segmenter session, but only when
`is_frozen` is set. -/

/-- The arguments of a `_render_frame` invocation that decide whether
the segmenter runs, plus the pan offsets it will read. -/
structure RenderCall where
  bgRemoval : Bool
  hasSession : Bool
  panX : ℚ
  panY : ℚ

/-- The app/widget state consulted by `_update_frame` and
`_rerender_frozen`. -/
structure AppState where
  isFrozen : Bool
  panX : ℚ
  panY : ℚ
  bgRemovalEnabled : Bool
  hasSession : Bool
  maskEditChecked : Bool

/-- `_update_frame`: skip the tick while frozen; on a successful camera
read (`frameRead`) reset both pan offsets, uncheck mask-edit, and render
with background removal hard-disabled (`False, None`). -/
def updateFrame (s : AppState) (frameRead : Bool) :
    AppState × Option RenderCall :=
  if s.isFrozen then (s, none)
  else if frameRead then
    ({ s with panX := 0, panY := 0, maskEditChecked := false },
     some { bgRemoval := false, hasSession := false, panX := 0, panY := 0 })
  else (s, none)

/-- `_render_frame` enters the sticker/segmentation branch iff
`bg_removal and bg_session is not None`. -/
def segmenterRuns (rc : RenderCall) : Bool :=
  rc.bgRemoval && rc.hasSession

/-- `_rerender_frozen`: re-render the frozen frame with the current
sticker-mode flag and segmenter session, only when `is_frozen`. -/
def rerenderFrozen (s : AppState) : Option RenderCall :=
  if s.isFrozen then
    some { bgRemoval := s.bgRemovalEnabled, hasSession := s.hasSession,
           panX := s.panX, panY := s.panY }
  else none

/-- A concrete live (not frozen) app state with sticker mode enabled, a
loaded segmenter session, and non-zero pan offsets; used by witnesses. -/
def appStateLive : AppState :=
  ⟨false, 1/2, 1/3, true, true, true⟩

/-! ## Outline compositing (`_render_frame`, lines 561-591)

The chain, starting from the combined binary mask:
`mask = (GaussianBlur(mask.astype(f32), (7,7), 2) > 0.3)`;
`dilated = dilate(mask, MORPH_ELLIPSE 13×13)`;
`dilated = (GaussianBlur(dilated.astype(f32), (5,5), 1.5) > 0.3)`;
`outline = np.clip(dilated - mask, 0, 1)` — the subtraction is numpy
`uint8` arithmetic, so `0 - 1` wraps to 255 before the clip.

Masks live on the infinite grid `ℤ × ℤ` (offsets are `(row, col)`).
Each Gaussian blur is modelled as a convolution with a kernel of the
matching support radius; its cv2 properties — nonnegative weights
summing to 1 — are carried as hypotheses of the theorems, since the
exact float coefficients are produced by `cv2.getGaussianKernel`. -/

/-- The square of offsets of radius `r` (the support of an
`(2r+1)×(2r+1)` convolution kernel). -/
def offsetSquare (r : ℕ) : Finset (ℤ × ℤ) :=
  Finset.Icc (-(r : ℤ)) r ×ˢ Finset.Icc (-(r : ℤ)) r

/-- A mask viewed as a float image (`astype(np.float32)`). -/
def natImg (m : ℤ × ℤ → ℕ) : ℤ × ℤ → ℚ :=
  fun p => (m p : ℚ)

/-- Convolution of `img` with the kernel `w` of support radius `r`
at pixel `p` (the model of `cv2.GaussianBlur`). -/
def blurWith (w : ℤ × ℤ → ℚ) (r : ℕ) (img : ℤ × ℤ → ℚ) (p : ℤ × ℤ) : ℚ :=
  ∑ o in offsetSquare r, w o * img (p.1 + o.1, p.2 + o.2)

/-- `(GaussianBlur(mask.astype(float32)) > 0.3).astype(np.uint8)`:
blur with kernel `w` of radius `r`, then re-binarise at 0.3. -/
def smoothBinarize (w : ℤ × ℤ → ℚ) (r : ℕ) (m : ℤ × ℤ → ℕ) : ℤ × ℤ → ℕ :=
  fun p => if 3/10 < blurWith w r (natImg m) p then 1 else 0

/-- Half-width of row `dy` of cv2's `MORPH_ELLIPSE` 13×13 structuring
element (`getStructuringElement` fills row `dy` for columns
`|dx| ≤ round(sqrt(36 − dy²))`; the rounded values are
6, 6, 6, 5, 4, 3, 0 for `|dy| = 0..6`). -/
def ellipseHalfWidth (dy : ℤ) : ℤ :=
  if dy.natAbs ≤ 2 then 6
  else if dy.natAbs = 3 then 5
  else if dy.natAbs = 4 then 4
  else if dy.natAbs = 5 then 3
  else 0

/-- The offset set of the 13×13 elliptical structuring element used by
`cv2.dilate` with `outline_width = 6`. -/
def ellipse13 : Finset (ℤ × ℤ) :=
  (offsetSquare 6).filter
    (fun o => -(ellipseHalfWidth o.1) ≤ o.2 ∧ o.2 ≤ ellipseHalfWidth o.1)

/-- `cv2.dilate(mask, ellipse13, iterations=1)` on a 0/1 mask: the
maximum of the mask over the structuring-element neighbourhood. -/
def dilate13 (m : ℤ × ℤ → ℕ) : ℤ × ℤ → ℕ :=
  fun p => ellipse13.sup (fun o => m (p.1 + o.1, p.2 + o.2))

/-- numpy `uint8` subtraction (wraps modulo 256; well-defined for
samples ≤ 255). -/
def sub8 (a b : ℕ) : ℕ :=
  (a + 256 - b) % 256

/-- The smoothed core mask of the compositor (line 561-564). -/
def smoothedMask (w7 : ℤ × ℤ → ℚ) (m0 : ℤ × ℤ → ℕ) : ℤ × ℤ → ℕ :=
  smoothBinarize w7 3 m0

/-- The dilated-then-smoothed mask of the compositor (lines 566-576). -/
def dilatedMask (w7 w5 : ℤ × ℤ → ℚ) (m0 : ℤ × ℤ → ℕ) : ℤ × ℤ → ℕ :=
  smoothBinarize w5 2 (dilate13 (smoothedMask w7 m0))

/-- `outline = np.clip(dilated - mask, 0, 1)` (lines 578-579), with the
`uint8` wrap-around of the subtraction made explicit. -/
def outlineMask (w7 w5 : ℤ × ℤ → ℚ) (m0 : ℤ × ℤ → ℕ) : ℤ × ℤ → ℕ :=
  fun p => min (sub8 (dilatedMask w7 w5 m0 p) (smoothedMask w7 m0 p)) 1

/-- The Dirac kernel — weight 1 at the origin — a concrete nonnegative
kernel of total weight 1, used by the witness. -/
def diracKernel : ℤ × ℤ → ℚ :=
  fun o => if o = (0, 0) then 1 else 0

/-- A one-pixel mask used by the witness. -/
def dotMask : ℤ × ℤ → ℕ :=
  fun p => if p = (0, 0) then 1 else 0

/-!
# Theorems
-/

/-! ### Paint-stroke mutual exclusion helpers -/

theorem paintAt_exclusive (L : MaskLayers) (s : Stroke)
    (h : layersExclusive L) : layersExclusive (paintAt L s) := by
  intro p
  unfold paintAt circleFill
  by_cases hm : s.addMode <;> by_cases hb : inBrush s.center s.radius p = true <;>
    simp [hm, hb, h p]

theorem applyStrokes_exclusive_aux (ss : List Stroke) (L : MaskLayers)
    (h : layersExclusive L) : layersExclusive (ss.foldl paintAt L) := by
  induction ss generalizing L with
  | nil => exact h
  | cons s rest ih => exact ih (paintAt L s) (paintAt_exclusive L s h)

/-- C5: after any finite sequence of paint strokes (any mix of Add and
Erase modes, positions and radii) starting from freshly initialised
layers, no pixel is set to 1 in both the additions and the removals
layer. -/
theorem paint_strokes_mutually_exclusive (ss : List Stroke) (p : ℤ × ℤ) :
    (applyStrokes ss).additions p * (applyStrokes ss).removals p = 0 :=
  applyStrokes_exclusive_aux ss emptyLayers (fun _ => rfl) p

/-! ### Brightness (C3) -/

/-- C3 counterexample: for input sample 10 and brightness −50 the code
(`cv2.convertScaleAbs`) produces 40 — the absolute value of −40 — while
the claim's formula `clamp(10 + (−50), 0, 255)` gives 0. -/
theorem brightness_clamp_counterexample :
    renderBrightness (-50) 10 = 40 ∧ specBrightness (-50) 10 = 0 ∧
      renderBrightness (-50) 10 ≠ specBrightness (-50) 10 := by
  refine ⟨by decide, by decide, by decide⟩

/-- C3 amended: the brightness step saturates at 255 and never wraps
around, and it agrees with the claimed `clamp(v + b, 0, 255)` whenever
`v + b ≥ 0`; but when `v + b < 0` the output is the reflected value
`min 255 |v + b|` (absolute value), not 0. -/
theorem brightness_saturates_reflects (b : ℤ) (v : ℕ) (hv : v ≤ 255) :
    renderBrightness b v ≤ 255 ∧
    (0 ≤ (v : ℤ) + b → renderBrightness b v = specBrightness b v) ∧
    ((v : ℤ) + b < 0 → renderBrightness b v = min 255 (-((v : ℤ) + b)).toNat) := by
  unfold renderBrightness specBrightness
  refine ⟨?_, ?_, ?_⟩
  · by_cases hb : b = 0
    · simp only [hb, if_true, ite_true]; omega
    · simp only [hb, if_false, ite_false]; omega
  · intro hpos
    by_cases hb : b = 0
    · simp only [hb, if_true, ite_true]; omega
    · simp only [hb, if_false, ite_false]; omega
  · intro hneg
    have hb : b ≠ 0 := by omega
    simp only [hb, if_false]
    omega

theorem brightness_saturates_reflects_witness :
    renderBrightness (-50) 10 ≤ 255 ∧ renderBrightness 30 200 = specBrightness 30 200 :=
  ⟨(brightness_saturates_reflects (-50) 10 (by norm_num)).1,
   (brightness_saturates_reflects 30 200 (by norm_num)).2.1 (by norm_num)⟩

/-! ### Combine idempotence (C6) -/

theorem combine_bitwise_idem (b x m : ℕ) :
    ((b ||| x) &&& m ||| x) &&& m = (b ||| x) &&& m := by
  apply Nat.eq_of_testBit_eq
  intro i
  simp only [Nat.testBit_and, Nat.testBit_or]
  cases b.testBit i <;> cases x.testBit i <;> cases m.testBit i <;> rfl

/-- C6: combining the same unchanged user layer twice yields the same
mask as combining it once, pixel for pixel, whenever the layer's
dimensions match the base mask's (`combine(combine(base, layer), layer)
= combine(base, layer)`). -/
theorem combine_user_masks_idem (base a r : SizedMask)
    (ha : a.rows = base.rows ∧ a.cols = base.cols)
    (hr : r.rows = base.rows ∧ r.cols = base.cols) (i j : ℕ) :
    (combineUserMasks (combineUserMasks base (some a) (some r))
        (some a) (some r)).val i j
      = (combineUserMasks base (some a) (some r)).val i j := by
  unfold combineUserMasks
  simp only [ha, hr, and_self, if_true, ite_true]
  exact combine_bitwise_idem (base.val i j) (a.val i j) (255 ^^^ r.val i j)

theorem combine_user_masks_idem_witness :
    (combineUserMasks (combineUserMasks sampleMask (some sampleLayer) (some sampleLayer))
        (some sampleLayer) (some sampleLayer)).val 0 1
      = (combineUserMasks sampleMask (some sampleLayer) (some sampleLayer)).val 0 1 :=
  combine_user_masks_idem sampleMask sampleLayer sampleLayer
    ⟨rfl, rfl⟩ ⟨rfl, rfl⟩ 0 1

/-! ### Sticker export (C1) -/

theorem exportQualityLoop_size_bound (save : ℕ → Option ℕ) :
    ∀ q d s, (exportQualityLoop save q d).1 = ExportOutcome.saved s →
      s ≤ stickerSizeLimit := by
  intro q
  induction q using Nat.strong_induction_on with
  | _ q ih =>
    intro d s hs
    rw [exportQualityLoop.eq_def] at hs
    split at hs
    case isTrue h10 =>
      cases hsave : save q with
      | some size =>
        rw [hsave] at hs
        simp only at hs
        split at hs
        case isTrue hle =>
          simp only [Prod.fst] at hs
          cases hs
          exact hle
        case isFalse hgt =>
          exact ih (q - 10) (by omega) true s hs
      | none =>
        rw [hsave] at hs
        simp at hs
    case isFalse h10 =>
      simp at hs

theorem exportQualityLoop_all_over (save : ℕ → Option ℕ)
    (hover : ∀ q, ∃ sz, save q = some sz ∧ stickerSizeLimit < sz) :
    ∀ q d, 10 ≤ q →
      exportQualityLoop save q d = (ExportOutcome.failed, true) := by
  intro q
  induction q using Nat.strong_induction_on with
  | _ q ih =>
    intro d h10
    obtain ⟨sz, hsz, hgt⟩ := hover q
    rw [exportQualityLoop.eq_def, dif_pos h10, hsz]
    simp only
    rw [if_neg (by omega)]
    by_cases h10' : 10 ≤ q - 10
    · exact ih (q - 10) (by omega) true h10'
    · rw [exportQualityLoop.eq_def, dif_neg h10']

/-- C1 counterexample: with an encoder whose output is 600 KB at every
quality step (all steps exceed the budget), the export fails — the
warning is surfaced — but the second component is `true`: a file (the
last attempted quality's save) IS left on disk, refuting "no file is
left on disk". -/
theorem export_no_file_counterexample :
    (exportSticker oversizedEncoder).1 = ExportOutcome.failed ∧
      (exportSticker oversizedEncoder).2 = true := by
  have h := exportQualityLoop_all_over oversizedEncoder
    (fun _ => ⟨600 * 1024, rfl, by norm_num [stickerSizeLimit]⟩) 90 false (by norm_num)
  rw [exportSticker, h]
  exact ⟨rfl, rfl⟩

/-- C1 amended: the export either returns a file of size at most
`500*1024` bytes or fails with the surfaced size-exceeded warning; when
every quality step (90 down to 10) exceeds the budget, the failure is
surfaced to the caller but the file written by the last save attempt is
left on disk. -/
theorem export_size_bound_or_surfaced_failure (save : ℕ → Option ℕ) :
    (∀ s, (exportSticker save).1 = ExportOutcome.saved s → s ≤ stickerSizeLimit) ∧
    ((∀ q, ∃ sz, save q = some sz ∧ stickerSizeLimit < sz) →
      exportSticker save = (ExportOutcome.failed, true)) :=
  ⟨fun s h => exportQualityLoop_size_bound save 90 false s h,
   fun hover => exportQualityLoop_all_over save hover 90 false (by norm_num)⟩

theorem export_size_bound_or_surfaced_failure_witness :
    exportSticker (fun _ => some (501 * 1024)) = (ExportOutcome.failed, true) :=
  (export_size_bound_or_surfaced_failure (fun _ => some (501 * 1024))).2
    (fun _ => ⟨501 * 1024, rfl, by norm_num [stickerSizeLimit]⟩)

/-! ### Pan clamp and zoom changes (C2) -/

/-- C2 counterexample: the frozen state with recorded zoom 5 and pan
`(4/5, 0)` satisfies the invariant (`|4/5| ≤ 1 − 1/5`); after the zoom
slider moves to 2, `_on_zoom_changed` re-renders (recording zoom 2) but
never re-clamps, leaving `|panX| = 4/5 > 1/2 = max(0, 1 − 1/2)` — the
invariant is not re-established on zoom change. -/
theorem pan_not_reclamped_counterexample :
    panWithin ⟨true, some 5, 4/5, 0⟩ ∧
      ¬ panWithin (onZoomChanged ⟨true, some 5, 4/5, 0⟩ 2) := by
  constructor
  · constructor <;> · rw [abs_le]; constructor <;> norm_num [maxPanFor]
  · intro h
    have hx := h.1
    rw [onZoomChanged] at hx
    simp only [if_true, abs_le, maxPanFor] at hx
    have := hx.2
    rw [show max 0 (1 - 1/(2:ℚ)) = 1/2 by norm_num] at this
    norm_num at this

/-- C2 amended: after every pan input the clamp bounds both offsets by
`max(0, 1 − 1/z)` for the zoom `z` recorded at the last render, for all
`z ∈ [1,5]`; but the invariant is NOT re-established when the zoom
changes — `_on_zoom_changed` only records the new zoom and leaves the
pan offsets untouched, so a zoom decrease can leave `|pan|` above the
new bound until the next pan input. -/
theorem pan_clamp_bound (s : PanState) (z dx dy : ℚ)
    (hz : s.lastZoom = some z) (_h1 : 1 ≤ z) (_h5 : z ≤ 5) :
    panWithin (clampPanOffset s) ∧ panWithin (panInput s dx dy) ∧
      (onZoomChanged s z).panX = s.panX ∧ (onZoomChanged s z).panY = s.panY := by
  have hm : 0 ≤ maxPanFor s.lastZoom := by
    rw [hz]
    exact le_max_left 0 _
  have key : ∀ x : ℚ,
      |max (-(maxPanFor s.lastZoom)) (min (maxPanFor s.lastZoom) x)| ≤
        maxPanFor s.lastZoom := by
    intro x
    rw [abs_le]
    exact ⟨le_max_left _ _, max_le (by linarith) (min_le_left _ _)⟩
  refine ⟨⟨key _, key _⟩, ⟨key _, key _⟩, ?_, ?_⟩ <;>
    · rw [onZoomChanged]; split <;> rfl

theorem pan_clamp_bound_witness :
    panWithin (clampPanOffset ⟨true, some 2, 3, -7⟩) :=
  (pan_clamp_bound ⟨true, some 2, 3, -7⟩ 2 1 0 rfl (by norm_num) (by norm_num)).1

/-! ### Coordinate round-trip (C7) -/

theorem pyTrunc_intCast (n : ℤ) : pyTrunc (n : ℚ) = n := by
  simp [pyTrunc]

/-- C7: for a pointer coordinate strictly inside the displayed pixmap
with no crop active, the mapping succeeds, lands inside the processed
frame, and composing it with the exact rescale back to display space
(`fx * pixmapW / procW`) recovers the original coordinate to within one
processing pixel: the display-space error lies in `[0, pixmapW/procW)`
(stated below in the integer form `0 ≤ p*procW − fx*pixmapW < pixmapW`),
hence within one display pixel whenever the pixmap does not upscale the
processed frame. -/
theorem displayToProcessing_unfold (pos widgetW pixmapW procW : ℤ)
    (h0 : 0 ≤ pos - (widgetW - pixmapW).fdiv 2)
    (h1 : pos - (widgetW - pixmapW).fdiv 2 < pixmapW) :
    displayToProcessing pos widgetW pixmapW procW =
      some (max 0 (min (procW - 1)
        (((pos - (widgetW - pixmapW).fdiv 2) * procW).fdiv pixmapW))) := by
  simp only [displayToProcessing]
  rw [if_neg]
  push_neg
  exact ⟨h0, h1⟩

theorem coordinate_roundtrip (pos widgetW pixmapW procW : ℤ)
    (hpw : 0 < pixmapW) (hW : 0 < procW)
    (h0 : 0 ≤ pos - (widgetW - pixmapW).fdiv 2)
    (h1 : pos - (widgetW - pixmapW).fdiv 2 < pixmapW) :
    ∃ fx, displayToProcessing pos widgetW pixmapW procW = some fx ∧
      0 ≤ fx ∧ fx < procW ∧
      0 ≤ (pos - (widgetW - pixmapW).fdiv 2) * procW - fx * pixmapW ∧
      (pos - (widgetW - pixmapW).fdiv 2) * procW - fx * pixmapW < pixmapW ∧
      (pixmapW ≤ procW →
        ((pos - (widgetW - pixmapW).fdiv 2 : ℤ) : ℚ) -
            ((fx * pixmapW : ℤ) : ℚ) / ((procW : ℤ) : ℚ) ≤ 1) := by
  have hunfold := displayToProcessing_unfold pos widgetW pixmapW procW h0 h1
  revert hunfold h0 h1
  generalize hp : pos - (widgetW - pixmapW).fdiv 2 = p
  intro h0 h1 hunfold
  obtain ⟨fx, hfxdef⟩ : ∃ fx, (p * procW).fdiv pixmapW = fx := ⟨_, rfl⟩
  have hfx : fx = p * procW / pixmapW := by
    rw [← hfxdef]
    exact Int.fdiv_eq_ediv _ hpw.le
  have hfx0 : 0 ≤ fx := by
    rw [hfx]
    exact Int.ediv_nonneg (mul_nonneg h0 hW.le) hpw.le
  have hfxW : fx < procW := by
    rw [hfx, Int.ediv_lt_iff_lt_mul hpw]
    calc p * procW < pixmapW * procW := mul_lt_mul_of_pos_right h1 hW
    _ = procW * pixmapW := mul_comm _ _
  have hdiv := Int.ediv_add_emod (p * procW) pixmapW
  have hcomm : pixmapW * (p * procW / pixmapW) = p * procW / pixmapW * pixmapW :=
    mul_comm _ _
  have hr0 : 0 ≤ p * procW % pixmapW := Int.emod_nonneg _ (ne_of_gt hpw)
  have hrlt : p * procW % pixmapW < pixmapW := Int.emod_lt_of_pos _ hpw
  have herr : p * procW - fx * pixmapW = p * procW % pixmapW := by
    rw [hfx]
    linarith
  refine ⟨fx, ?_, hfx0, hfxW, by rw [herr]; exact hr0, by rw [herr]; exact hrlt, ?_⟩
  · rw [hunfold, hfxdef,
      min_eq_right (by linarith : fx ≤ procW - 1),
      max_eq_right (by linarith : (0 : ℤ) ≤ fx)]
  · intro hle
    have hWQ : (0 : ℚ) < ((procW : ℤ) : ℚ) := by exact_mod_cast hW
    have hint : (p - 1) * procW ≤ fx * pixmapW := by nlinarith
    have hq : ((p : ℚ) - 1) * ((procW : ℤ) : ℚ) ≤ ((fx * pixmapW : ℤ) : ℚ) := by
      exact_mod_cast hint
    have := (le_div_iff₀ hWQ).mpr hq
    linarith

theorem coordinate_roundtrip_witness :
    ∃ fx, displayToProcessing 300 640 320 1280 = some fx ∧ 0 ≤ fx ∧ fx < 1280 := by
  obtain ⟨fx, hsome, hpos, hlt, -⟩ :=
    coordinate_roundtrip 300 640 320 1280 (by norm_num) (by norm_num)
      (by decide) (by decide)
  exact ⟨fx, hsome, hpos, hlt⟩

/-! ### Zoom-crop scenarios (C8) -/

theorem zoomCrop_at_100 (f : RawFrame) (hh : f.h = 100) (hw : f.w = 100) :
    zoomCrop 2 0 0 f = RawFrame.mk 50 50 (fun i j => f.px (25 + i) (25 + j)) := by
  unfold zoomCrop
  rw [if_pos (by norm_num : (1:ℚ) < 2), hh, hw]
  rw [show (((100:ℕ):ℚ))/2 = ((50:ℤ):ℚ) by norm_num, pyTrunc_intCast]
  rw [show ((0:ℚ) * ((100:ℕ):ℚ) / 2) = ((0:ℤ):ℚ) by norm_num, pyTrunc_intCast]
  norm_num
  refine ⟨by decide, ?_⟩
  rw [show ((0 ⊔ 50 ⊓ Int.fdiv 50 2 : ℤ)).toNat = 25 from by decide]

/-- C8: for any 100×100 frame, zoom 2.0 with pan (0,0) crops the
centred 50×50 region (`frame[25:75, 25:75]`); and for any frame, zoom
1.0 skips the crop entirely — the result is exactly the mirror- and
brightness-adjusted frame. -/
theorem geometry_zoom_scenarios :
    (∀ f : RawFrame, f.h = 100 → f.w = 100 →
      (renderGeometry f false 2 0 0 0).h = 50 ∧
      (renderGeometry f false 2 0 0 0).w = 50 ∧
      ∀ i j : ℕ, (renderGeometry f false 2 0 0 0).px i j = f.px (25 + i) (25 + j)) ∧
    (∀ (f : RawFrame) (m : Bool) (panX panY : ℚ) (b : ℤ),
      renderGeometry f m 1 panX panY b = brightnessFrame b (mirrorFrame m f)) := by
  constructor
  · intro f hh hw
    rw [renderGeometry, show mirrorFrame false f = f from rfl, zoomCrop_at_100 f hh hw]
    refine ⟨rfl, rfl, ?_⟩
    intro i j
    simp [brightnessFrame, renderBrightness]
  · intro f m panX panY b
    rw [renderGeometry]
    congr 1

theorem geometry_zoom_scenarios_witness :
    (renderGeometry testFrame false 2 0 0 0).h = 50 ∧
      (renderGeometry testFrame false 2 0 0 0).px 0 0 = testFrame.px 25 25 :=
  ⟨(geometry_zoom_scenarios.1 testFrame rfl rfl).1,
   (geometry_zoom_scenarios.1 testFrame rfl rfl).2.2 0 0⟩

/-! ### Live ticks, segmentation and pan reset (C9, C10) -/

/-- C9: a timer tick while the widget is not frozen renders with
background removal hard-disabled (`False, None`), so `segmenterRuns` is
false for every render call a tick issues — even with sticker mode
enabled and a session loaded — and the sticker pipeline's only other
entry point, `_rerender_frozen`, issues no render at all unless the
frame is frozen. -/
theorem live_tick_never_segments (s : AppState) (r : Bool) :
    (∀ rc, (updateFrame s r).2 = some rc →
      rc.bgRemoval = false ∧ segmenterRuns rc = false) ∧
    (s.isFrozen = false → rerenderFrozen s = none) := by
  constructor
  · intro rc hrc
    unfold updateFrame at hrc
    by_cases hf : s.isFrozen
    · simp [hf] at hrc
    · by_cases hr : r
      · simp only [hf, hr, Bool.false_eq_true, if_false, if_true,
          Option.some.injEq] at hrc
        rw [← hrc]
        exact ⟨rfl, rfl⟩
      · simp [hf, hr] at hrc
  · intro hf
    unfold rerenderFrozen
    rw [if_neg (by simp [hf])]

theorem live_tick_never_segments_witness :
    segmenterRuns ⟨false, false, 0, 0⟩ = false ∧
      rerenderFrozen appStateLive = none :=
  ⟨((live_tick_never_segments appStateLive true).1 ⟨false, false, 0, 0⟩ rfl).2,
   (live_tick_never_segments appStateLive true).2 rfl⟩

/-- C10: on every live (non-frozen) tick whose camera read succeeds,
both pan offsets are reset to 0 in the stored state before the render
call is issued, and the render call itself sees pan (0, 0). -/
theorem live_tick_resets_pan (s : AppState) (h : s.isFrozen = false) :
    (updateFrame s true).1.panX = 0 ∧ (updateFrame s true).1.panY = 0 ∧
      ∃ rc, (updateFrame s true).2 = some rc ∧ rc.panX = 0 ∧ rc.panY = 0 := by
  unfold updateFrame
  simp [h]

theorem live_tick_resets_pan_witness :
    (updateFrame appStateLive true).1.panX = 0 :=
  (live_tick_resets_pan appStateLive rfl).1

/-! ### Outline and mask disjointness (C4) -/

theorem smoothBinarize_le_one (w : ℤ × ℤ → ℚ) (r : ℕ) (m : ℤ × ℤ → ℕ)
    (p : ℤ × ℤ) : smoothBinarize w r m p ≤ 1 := by
  unfold smoothBinarize
  split <;> norm_num

theorem ellipseHalfWidth_of_small (dy : ℤ) (h : dy.natAbs ≤ 2) :
    ellipseHalfWidth dy = 6 := by
  unfold ellipseHalfWidth
  rw [if_pos h]

theorem neg_mem_ellipse13 (o : ℤ × ℤ) (ho : o ∈ offsetSquare 2) :
    ((-o.1, -o.2) : ℤ × ℤ) ∈ ellipse13 := by
  simp only [offsetSquare, Finset.mem_product, Finset.mem_Icc] at ho
  obtain ⟨⟨h1, h2⟩, h3, h4⟩ := ho
  have habs : (-o.1).natAbs ≤ 2 := by omega
  simp only [ellipse13, Finset.mem_filter, offsetSquare, Finset.mem_product,
    Finset.mem_Icc]
  refine ⟨⟨⟨by omega, by omega⟩, by omega, by omega⟩, ?_, ?_⟩ <;>
    rw [ellipseHalfWidth_of_small _ habs] <;> omega

theorem dilate13_one_near (w7 : ℤ × ℤ → ℚ) (m0 : ℤ × ℤ → ℕ) (p : ℤ × ℤ)
    (hp : smoothedMask w7 m0 p = 1) (o : ℤ × ℤ) (ho : o ∈ offsetSquare 2) :
    dilate13 (smoothedMask w7 m0) (p.1 + o.1, p.2 + o.2) = 1 := by
  unfold dilate13
  have hpe : ((p.1 + o.1 + -o.1, p.2 + o.2 + -o.2) : ℤ × ℤ) = p := by simp
  have hsup := @Finset.le_sup ℕ (ℤ × ℤ) _ _ ellipse13
    (fun o' => smoothedMask w7 m0 (p.1 + o.1 + o'.1, p.2 + o.2 + o'.2))
    ((-o.1, -o.2) : ℤ × ℤ) (neg_mem_ellipse13 o ho)
  refine le_antisymm (Finset.sup_le fun o' _ => smoothBinarize_le_one w7 3 m0 _) ?_
  calc (1 : ℕ) = smoothedMask w7 m0 (p.1 + o.1 + -o.1, p.2 + o.2 + -o.2) := by
        rw [hpe, hp]
    _ ≤ _ := hsup

/-- C4: the composited outline `clip(dilated − mask, 0, 1)` and the
smoothed core mask are disjoint at every pixel (`outline AND mask = 0`,
stated as a product of 0/1 values), for every input mask and every
5×5 smoothing kernel with nonnegative weights of total weight 1 — the
cv2 Gaussian kernel satisfies both.  Where the core mask is 1, every
pixel within the 5×5 blur support lies in the 13×13 dilation
neighbourhood of a mask pixel, so the re-binarised dilated mask is also
1 there and the subtraction yields 0 (no `uint8` wrap-around occurs). -/
theorem outline_mask_disjoint (w7 w5 : ℤ × ℤ → ℚ) (m0 : ℤ × ℤ → ℕ)
    (_h5n : ∀ o ∈ offsetSquare 2, 0 ≤ w5 o)
    (h5s : ∑ o in offsetSquare 2, w5 o = 1) (p : ℤ × ℤ) :
    outlineMask w7 w5 m0 p * smoothedMask w7 m0 p = 0 := by
  by_cases hm : smoothedMask w7 m0 p = 1
  · have hblur : blurWith w5 2 (natImg (dilate13 (smoothedMask w7 m0))) p = 1 := by
      unfold blurWith
      have hterm : ∀ o ∈ offsetSquare 2,
          w5 o * natImg (dilate13 (smoothedMask w7 m0)) (p.1 + o.1, p.2 + o.2)
            = w5 o := by
        intro o ho
        simp only [natImg]
        rw [dilate13_one_near w7 m0 p hm o ho]
        norm_num
      rw [Finset.sum_congr rfl hterm, h5s]
    have hd : dilatedMask w7 w5 m0 p = 1 := by
      unfold dilatedMask smoothBinarize
      rw [hblur]
      norm_num
    unfold outlineMask
    rw [hd, hm]
    rfl
  · have hle : smoothedMask w7 m0 p ≤ 1 := smoothBinarize_le_one w7 3 m0 p
    have h0 : smoothedMask w7 m0 p = 0 := by omega
    rw [h0, mul_zero]

theorem outline_mask_disjoint_witness :
    outlineMask diracKernel diracKernel dotMask (0, 0) *
      smoothedMask diracKernel dotMask (0, 0) = 0 :=
  outline_mask_disjoint diracKernel diracKernel dotMask
    (fun o _ => by unfold diracKernel; split <;> norm_num)
    (by
      simp only [diracKernel]
      rw [Finset.sum_ite_eq' (offsetSquare 2) ((0, 0) : ℤ × ℤ) (fun _ => (1 : ℚ))]
      rw [if_pos (by decide)])
    (0, 0)
